import Mathlib

/-!
Verification development for the "friday" agentic CLI assistant.

This file gives a shallow embedding, in Lean 4, of the safety-critical core of
the repository: the workspace sandboxer (`src/workspace.ts`), the approval
gate (`src/mcp/tools/approval.ts`), the file tools
(`src/mcp/tools/{write-file,apply-patch,read-file,run-command}.ts`), the tool
dispatcher (`executeToolCall` in `src/router.ts`) and the budgeted agent loop
(`ClaudeProvider.generateResponse` in `src/providers/claude.ts`), together
with theorems settling the spec's testable properties against that embedding.

Modelling conventions:
* Paths are POSIX strings; the Node `path` library functions (`resolve`,
  `relative`, `isAbsolute`, `join`) are modelled by executable Lean functions
  over segment lists.  `path.relative(from, to)` first resolves both of its
  arguments; since the dispatcher only ever feeds it a path string it has
  itself just resolved, the model fuses that (idempotent) re-resolution and
  reuses the resolved segment list directly.
* JavaScript string primitives (`startsWith`, `toLowerCase`, `trim`,
  `substring`, `split`) are re-implemented over `String.data` so that every
  definition evaluates inside the kernel.
* I/O-bearing operations thread an explicit `World` state (an in-memory file
  system, the stream of pending human approval answers, the audit ledger and
  effect logs); external capabilities (search, git, subprocess output, the
  advisor models, the language model itself) are oracle functions supplied as
  parameters, matching the spec's "external collaborator" boundaries.
-/

set_option autoImplicit false
set_option maxRecDepth 8000

namespace Friday

/-! ### JavaScript string primitives, re-implemented executably -/

/-- Character-list prefix test used to model JavaScript
`String.prototype.startsWith`. -/
def charsStartWith : List Char → List Char → Bool
  | [], _ => true
  | _ :: _, [] => false
  | p :: ps, c :: cs => p == c && charsStartWith ps cs

/-- Model of JavaScript `s.startsWith(pre)`. -/
def strStartsWith (s pre : String) : Bool :=
  charsStartWith pre.data s.data

/-- Model of JavaScript `String.prototype.toLowerCase` (ASCII range, which is
all the source ever compares). -/
def jsToLower (s : String) : String :=
  ⟨s.data.map Char.toLower⟩

/-- Drop whitespace from both ends of a character list. -/
def trimChars (cs : List Char) : List Char :=
  ((cs.dropWhile Char.isWhitespace).reverse.dropWhile Char.isWhitespace).reverse

/-- Model of JavaScript `String.prototype.trim`. -/
def jsTrim (s : String) : String :=
  ⟨trimChars s.data⟩

/-- Model of JavaScript `s.substring(0, n)`. -/
def strTake (s : String) (n : Nat) : String :=
  ⟨s.data.take n⟩

/-- Split a character list at `/` separators (model of `split('/')` /
`splitOn "/"` as used by the Node path machinery on POSIX paths). -/
def splitSlashAux : List Char → List Char → List (List Char)
  | [], acc => [acc.reverse]
  | c :: cs, acc =>
      if c = '/' then acc.reverse :: splitSlashAux cs []
      else splitSlashAux cs (c :: acc)

/-- Raw `/`-separated segments of a path string (empty segments included,
exactly as the Node path parser sees them before normalisation). -/
def rawSegs (p : String) : List String :=
  (splitSlashAux p.data []).map (fun cs => ⟨cs⟩)

/-! ### Node `path` (POSIX) model -/

/-- Model of `path.isAbsolute` on POSIX: the string starts with `/`. -/
def nodeIsAbsolute (p : String) : Bool :=
  strStartsWith p "/"

/-- A path segment that survives normalisation: not empty, not `.`, not `..`. -/
def isPlainSeg (s : String) : Bool :=
  s ≠ "" && s ≠ "." && s ≠ ".."

/-- One step of Node's path normalisation over a reversed segment stack:
empty and `.` segments are dropped, `..` pops the previous segment (and is
dropped at the root, as `path.resolve` does for absolute paths), any other
segment is kept. -/
def normStep (acc : List String) (s : String) : List String :=
  if s = "" || s = "." then acc
  else if s = ".." then acc.tail
  else s :: acc

/-- Normalise the segments of an absolute path, as `path.resolve` does. -/
def normAbsSegs (segs : List String) : List String :=
  (segs.foldl normStep []).reverse

/-- Join segments with `/` (model of `segments.join('/')`). -/
def joinSegs : List String → String
  | [] => ""
  | [s] => s
  | s :: rest => s ++ "/" ++ joinSegs rest

/-- Render a normalised absolute segment list back to a path string. -/
def renderAbs (segs : List String) : String :=
  "/" ++ joinSegs segs

/-- Model of `path.resolve(workspace, target)` as used by
`resolvePathInWorkspace`: an absolute target is normalised as-is, a relative
target is appended to the (absolute) workspace first.  Returns the resolved
path's segment decomposition. -/
def resolveSegs (workspace target : String) : List String :=
  if nodeIsAbsolute target then normAbsSegs (rawSegs target)
  else normAbsSegs (rawSegs workspace ++ rawSegs target)

/-- Length of the longest common leading run of two segment lists. -/
def commonPrefixLen : List String → List String → Nat
  | a :: as, b :: bs => if a = b then commonPrefixLen as bs + 1 else 0
  | _, _ => 0

/-- Segment decomposition produced by `path.relative(from, to)` for two
resolved absolute paths: one `..` per uncommon `from` segment, then the
uncommon `to` segments. -/
def relSegsOf (fromSegs toSegs : List String) : List String :=
  List.replicate (fromSegs.length - commonPrefixLen fromSegs toSegs) ".."
    ++ toSegs.drop (commonPrefixLen fromSegs toSegs)

/-- Model of `path.relative(workspace, resolvedPath)`; `resolvedPath` is
passed as its (already resolved) segment decomposition. -/
def nodeRelative (workspace : String) (resolvedSegs : List String) : String :=
  joinSegs (relSegsOf (normAbsSegs (rawSegs workspace)) resolvedSegs)

/-! ### `src/workspace.ts` -/

/-- The data carried by a thrown `WorkspaceError`: its message interpolates
the workspace root, the offending resolved path and the relative path. -/
structure WorkspaceError where
  workspace : String
  target : String
  rel : String
deriving Repr, DecidableEq

/-- The `WorkspaceError` message built by `assertPathWithinWorkspace`. -/
def WorkspaceError.message (e : WorkspaceError) : String :=
  "Attempted write outside workspace.\n  Workspace: " ++ e.workspace
    ++ "\n  Target: " ++ e.target ++ "\n  Relative: " ++ e.rel

/-- `assertPathWithinWorkspace(resolvedPath, workspace)`: computes
`relative(workspace, resolvedPath)` and rejects when that string starts with
`..` or is itself absolute.  `none` means the assertion passed. -/
def assertPathWithinWorkspace (resolvedSegs : List String) (workspace : String) :
    Option WorkspaceError :=
  if strStartsWith (nodeRelative workspace resolvedSegs) ".."
      || nodeIsAbsolute (nodeRelative workspace resolvedSegs) then
    some ⟨workspace, renderAbs resolvedSegs, nodeRelative workspace resolvedSegs⟩
  else
    none

/-- `resolvePathInWorkspace(targetPath, workspace)`: resolve the target
against the workspace, then assert containment; `Except.error` models the
thrown `WorkspaceError`. -/
def resolvePathInWorkspace (targetPath workspace : String) :
    Except WorkspaceError String :=
  match assertPathWithinWorkspace (resolveSegs workspace targetPath) workspace with
  | some e => .error e
  | none => .ok (renderAbs (resolveSegs workspace targetPath))

/-! ### Lemmas about the path model -/

theorem commonPrefixLen_le_left :
    ∀ a b : List String, commonPrefixLen a b ≤ a.length := by
  intro a
  induction a with
  | nil => intro b; simp [commonPrefixLen]
  | cons x xs ih =>
      intro b
      cases b with
      | nil => simp [commonPrefixLen]
      | cons y ys =>
          by_cases h : x = y <;> simp [commonPrefixLen, h]
          exact ih ys

theorem take_eq_of_commonPrefixLen_eq_length :
    ∀ a b : List String, commonPrefixLen a b = a.length →
      b.take a.length = a := by
  intro a
  induction a with
  | nil => intro b _; simp
  | cons x xs ih =>
      intro b h
      cases b with
      | nil => simp [commonPrefixLen] at h
      | cons y ys =>
          by_cases hxy : x = y
          · subst hxy
            simp only [commonPrefixLen, if_true, List.length_cons, eq_self_iff_true,
              ite_true, Nat.add_right_cancel_iff] at h
            simp [List.take_succ_cons, ih ys h]
          · simp [commonPrefixLen, hxy] at h

theorem foldl_normStep_plain :
    ∀ (l acc : List String), (∀ x ∈ acc, isPlainSeg x = true) →
      ∀ x ∈ l.foldl normStep acc, isPlainSeg x = true := by
  intro l
  induction l with
  | nil => intro acc hacc; simpa using hacc
  | cons s rest ih =>
      intro acc hacc
      refine ih (normStep acc s) ?_
      intro x hx
      unfold normStep at hx
      split at hx
      · exact hacc x hx
      · split at hx
        · exact hacc x (List.mem_of_mem_tail hx)
        · rcases List.mem_cons.mp hx with h | h
          · subst h
            rename_i h1 h2
            simp only [Bool.or_eq_true, decide_eq_true_eq] at h1
            push_neg at h1
            simp [isPlainSeg, h1.1, h1.2, h2]
          · exact hacc x h

theorem normAbsSegs_plain (l : List String) :
    ∀ x ∈ normAbsSegs l, isPlainSeg x = true := by
  intro x hx
  exact foldl_normStep_plain l [] (by simp) x (List.mem_reverse.mp hx)

theorem dotdot_data : (".." : String).data = ['.', '.'] := rfl

theorem strStartsWith_join_dotdot (l : List String) :
    strStartsWith (joinSegs (".." :: l)) ".." = true := by
  cases l with
  | nil => decide
  | cons s rest =>
      show strStartsWith (".." ++ "/" ++ joinSegs (s :: rest)) ".." = true
      simp only [strStartsWith, String.data_append, dotdot_data]
      show charsStartWith ['.', '.'] ('.' :: '.' :: ('/' :: (joinSegs (s :: rest)).data)) = true
      simp [charsStartWith]

/-- In the error branch, `assertPathWithinWorkspace` records the workspace and
the rendered resolved path. -/
theorem assertPathWithinWorkspace_error (resolvedSegs : List String)
    (workspace : String) (e : WorkspaceError)
    (h : assertPathWithinWorkspace resolvedSegs workspace = some e) :
    e.workspace = workspace ∧ e.target = renderAbs resolvedSegs := by
  unfold assertPathWithinWorkspace at h
  split at h
  · cases h; exact ⟨rfl, rfl⟩
  · cases h

/-- If the containment assertion passes, the workspace's segment
decomposition is a leading run of the resolved path's, and the relative
decomposition contains no `..` segment. -/
theorem assertPathWithinWorkspace_pass (resolvedSegs : List String)
    (workspace : String)
    (hplain : ∀ x ∈ resolvedSegs, isPlainSeg x = true)
    (h : assertPathWithinWorkspace resolvedSegs workspace = none) :
    resolvedSegs.take (normAbsSegs (rawSegs workspace)).length
        = normAbsSegs (rawSegs workspace) ∧
      ".." ∉ relSegsOf (normAbsSegs (rawSegs workspace)) resolvedSegs := by
  set wsSegs := normAbsSegs (rawSegs workspace) with hws
  unfold assertPathWithinWorkspace at h
  split at h
  · cases h
  · rename_i hcond
    simp only [Bool.or_eq_true, not_or] at hcond
    have hcp : commonPrefixLen wsSegs resolvedSegs = wsSegs.length := by
      by_contra hne
      have hlt : commonPrefixLen wsSegs resolvedSegs < wsSegs.length :=
        lt_of_le_of_ne (commonPrefixLen_le_left wsSegs resolvedSegs) hne
      have hpos : 0 < wsSegs.length - commonPrefixLen wsSegs resolvedSegs :=
        Nat.sub_pos_of_lt hlt
      obtain ⟨n, hn⟩ := Nat.exists_eq_succ_of_ne_zero (Nat.pos_iff_ne_zero.mp hpos)
      have hrel : relSegsOf wsSegs resolvedSegs
          = ".." :: (List.replicate n ".."
              ++ resolvedSegs.drop (commonPrefixLen wsSegs resolvedSegs)) := by
        unfold relSegsOf
        rw [hn, List.replicate_succ, List.cons_append]
      have := strStartsWith_join_dotdot
        (List.replicate n ".."
          ++ resolvedSegs.drop (commonPrefixLen wsSegs resolvedSegs))
      rw [← hrel] at this
      exact hcond.1 (by simpa [nodeRelative, ← hws] using this)
    constructor
    · exact take_eq_of_commonPrefixLen_eq_length wsSegs resolvedSegs hcp
    · unfold relSegsOf
      rw [hcp, Nat.sub_self, List.replicate_zero, List.nil_append]
      intro hmem
      have := hplain ".." (List.mem_of_mem_drop hmem)
      simp [isPlainSeg] at this

/-- C1 — Sandbox containment: for every absolute workspace root and every
target path, `resolvePathInWorkspace` either succeeds with a path whose
decomposition extends the workspace's (no parent-traversal segment in the
relative decomposition), or fails with a `WorkspaceError` naming the
workspace and the offending resolved path.  The check is structural, so no
successful resolution ever escapes the workspace — including `..` chains,
absolute paths elsewhere, and sibling directories sharing a string prefix. -/
theorem sandbox_containment (target workspace : String)
    (_habs : nodeIsAbsolute workspace = true) :
    (∀ r, resolvePathInWorkspace target workspace = .ok r →
        r = renderAbs (resolveSegs workspace target) ∧
        (resolveSegs workspace target).take
            (normAbsSegs (rawSegs workspace)).length
          = normAbsSegs (rawSegs workspace) ∧
        ".." ∉ relSegsOf (normAbsSegs (rawSegs workspace))
            (resolveSegs workspace target)) ∧
    (∀ e, resolvePathInWorkspace target workspace = .error e →
        e.workspace = workspace ∧
        e.target = renderAbs (resolveSegs workspace target)) := by
  constructor
  · intro r hr
    unfold resolvePathInWorkspace at hr
    split at hr
    · cases hr
    · rename_i hnone
      cases hr
      have hplain : ∀ x ∈ resolveSegs workspace target, isPlainSeg x = true := by
        unfold resolveSegs
        split <;> exact normAbsSegs_plain _
      exact ⟨rfl, assertPathWithinWorkspace_pass _ _ hplain hnone⟩
  · intro e he
    unfold resolvePathInWorkspace at he
    split at he
    · rename_i hsome
      cases he
      exact assertPathWithinWorkspace_error _ _ _ hsome
    · cases he

/-- Witness for C1 at concrete inputs: a plain relative target resolves
inside the workspace, and the conclusions evaluate. -/
theorem sandbox_containment_witness :
    nodeIsAbsolute "/ws" = true ∧
    ((∀ r, resolvePathInWorkspace "sub/../a.txt" "/ws" = .ok r →
        r = renderAbs (resolveSegs "/ws" "sub/../a.txt") ∧
        (resolveSegs "/ws" "sub/../a.txt").take
            (normAbsSegs (rawSegs "/ws")).length
          = normAbsSegs (rawSegs "/ws") ∧
        ".." ∉ relSegsOf (normAbsSegs (rawSegs "/ws"))
            (resolveSegs "/ws" "sub/../a.txt")) ∧
    (∀ e, resolvePathInWorkspace "sub/../a.txt" "/ws" = .error e →
        e.workspace = "/ws" ∧
        e.target = renderAbs (resolveSegs "/ws" "sub/../a.txt"))) :=
  ⟨by decide, sandbox_containment "sub/../a.txt" "/ws" (by decide)⟩

/-- C10 — the `startsWith('..')` test over-rejects: the target `..config`
under workspace `/ws` resolves to `/ws/..config`, which lies strictly inside
the workspace (its relative decomposition `["..config"]` has no `..`
segment and extends the workspace decomposition), yet
`resolvePathInWorkspace` throws a `WorkspaceError` for it. -/
theorem sandbox_over_rejects_dotdot_names :
    resolvePathInWorkspace "..config" "/ws"
        = .error ⟨"/ws", "/ws/..config", "..config"⟩ ∧
    (resolveSegs "/ws" "..config").take (normAbsSegs (rawSegs "/ws")).length
        = normAbsSegs (rawSegs "/ws") ∧
    ".." ∉ relSegsOf (normAbsSegs (rawSegs "/ws"))
        (resolveSegs "/ws" "..config") := by
  refine ⟨rfl, by decide, by decide⟩

/-! ### `src/types.ts` — the data model -/

/-- `ApprovalChoice` from `types.ts`: the four possible answers of the
approval gate. -/
inductive ApprovalChoice where
  | yes
  | no
  | skip
  | abort
deriving Repr, DecidableEq

/-- The subset of `CliOptions` the dispatcher and tool builders consult. -/
structure CliOptions where
  apply : Bool
  approve : Bool
  advisors : List String
  workspace : Option String
  cwd : String
deriving Repr, DecidableEq

/-- `AgentTool`: a catalog entry offered to the model (`name`,
`description`, and the schema's required fields). -/
structure AgentTool where
  name : String
  description : String
  required : List String
deriving Repr, DecidableEq

/-- `ToolResult`: the uniform success-content / error-message envelope. -/
structure ToolResult where
  content : Option String := none
  error : Option String := none
deriving Repr, DecidableEq

/-- The structured input of a tool invocation (the union of the fields the
tool schemas declare; absent fields are empty). -/
structure ToolInput where
  query : String := ""
  path : String := ""
  cmd : String := ""
  content : String := ""
  unifiedDiff : String := ""
  promptArg : String := ""
deriving Repr, DecidableEq

/-- `ToolCallRecord`: one audit-ledger entry.  The wall-clock timestamp of
the source is environment-supplied and carried opaquely, so it is omitted
here. -/
structure ToolCallRecord where
  tool : String
  input : ToolInput
  output : String
deriving Repr, DecidableEq

/-- `OperationResult` as the write tools actually use it: the `abort` flag
models the dynamically-attached `abort: true` property of the abort
branches. -/
structure OperationResult where
  ok : Bool
  message : String
  abort : Bool := false
deriving Repr, DecidableEq

/-- `CommandResult` from `types.ts`. -/
structure CommandResult where
  stdout : String
  stderr : String
  exitCode : Int
deriving Repr, DecidableEq

/-- `AdvisorResponse` from `types.ts`. -/
structure AdvisorResponse where
  response : String
  model : String
  error : Option String := none
deriving Repr, DecidableEq

/-- `ALLOWED_COMMANDS` from `types.ts`. -/
def ALLOWED_COMMANDS : List String :=
  ["yarn test", "yarn lint", "yarn typecheck", "yarn build",
   "npm test", "npm run lint", "npm run typecheck", "npm run build",
   "git diff", "git status", "git log", "ls", "cat", "head", "tail"]

/-! ### `src/mcp/tools/approval.ts` — the approval gate

The current revision of the module: a TTY-attached session gets the
`@inquirer/select` chooser offering Apply / Skip / Reject, with any
cancellation (Esc, Ctrl-C) caught and mapped to `abort`; a session without a
TTY falls back to a textual `[y]es/[s]kip/[n]o` readline prompt. -/

/-- The human-interaction event that resolves one approval prompt: a chooser
selection (index into the offered choices), a chooser cancellation, or a
typed answer on the non-TTY fallback prompt. -/
inductive ApprovalUIEvent where
  | ttySelect (i : Fin 3)
  | ttyCancel
  | noTTY (answer : String)

/-- The answer mapping of `promptForApprovalSimple`, the non-TTY fallback
prompt (`[y]es/[s]kip/[n]o`): `y`/`yes` apply, `s`/`skip` skip, anything
else — including `n`, `a`, and unparseable input — rejects. -/
def promptForApprovalSimple (answer : String) : ApprovalChoice :=
  if jsTrim (jsToLower answer) = "y" ∨ jsTrim (jsToLower answer) = "yes" then .yes
  else if jsTrim (jsToLower answer) = "s" ∨ jsTrim (jsToLower answer) = "skip" then .skip
  else .no

/-- The values offered by the interactive chooser, in display order
(Apply, Skip, Reject). -/
def approvalSelectChoices : List ApprovalChoice :=
  [.yes, .skip, .no]

/-- `promptForApproval`, the approval decision function, as a function of
the resolving human-interaction event. -/
def promptForApproval : ApprovalUIEvent → ApprovalChoice
  | .ttySelect i => approvalSelectChoices.get ⟨i, by cases i with | mk v h => simpa [approvalSelectChoices] using h⟩
  | .ttyCancel => .abort
  | .noTTY answer => promptForApprovalSimple answer

/-- `parseApprovalChoice` from an earlier revision of `approval.ts` (the
plain-readline `[y]es / [n]o / [s]kip / [a]bort all` prompt), kept here for
reference: it mapped `a`/`abort` to `abort` and defaulted to `no`.  The
current module's fallback prompt (`promptForApprovalSimple` above) no longer
offers or parses `a`. -/
def parseApprovalChoice (input : String) : ApprovalChoice :=
  if jsTrim (jsToLower input) = "y" ∨ jsTrim (jsToLower input) = "yes" then .yes
  else if jsTrim (jsToLower input) = "n" ∨ jsTrim (jsToLower input) = "no" then .no
  else if jsTrim (jsToLower input) = "s" ∨ jsTrim (jsToLower input) = "skip" then .skip
  else if jsTrim (jsToLower input) = "a" ∨ jsTrim (jsToLower input) = "abort" then .abort
  else .no

/-- C7 counterexample: on the current non-interactive fallback prompt the
answer `a` resolves to `no`, not to `abort` — so the fallback does not map
`y/n/s/a` to the four corresponding choices as claimed. -/
theorem approval_fallback_a_is_no :
    promptForApprovalSimple "a" = ApprovalChoice.no ∧
    promptForApprovalSimple "a" ≠ ApprovalChoice.abort := by
  exact ⟨by decide, by decide⟩

/-- C7 (amended) — the approval decision function always returns one of
{yes, no, skip, abort}; the non-TTY fallback only ever returns yes, skip or
no, and its mapping is characterised completely: it returns `yes` exactly
for the answers `y`/`yes` and `skip` exactly for `s`/`skip` (after
lowercasing and trimming), and every other answer — unrecognized or
unparseable input included — resolves to `no`, never to `yes`. -/
theorem approval_exhaustive_safe_default :
    (∀ e, promptForApproval e ∈
        [ApprovalChoice.yes, ApprovalChoice.no, ApprovalChoice.skip,
         ApprovalChoice.abort]) ∧
    (∀ answer,
        promptForApprovalSimple answer ∈
          [ApprovalChoice.yes, ApprovalChoice.skip, ApprovalChoice.no] ∧
        (promptForApprovalSimple answer = ApprovalChoice.yes ↔
          (jsTrim (jsToLower answer) = "y" ∨ jsTrim (jsToLower answer) = "yes")) ∧
        (promptForApprovalSimple answer = ApprovalChoice.skip ↔
          (jsTrim (jsToLower answer) = "s" ∨ jsTrim (jsToLower answer) = "skip")) ∧
        (¬ (jsTrim (jsToLower answer) = "y" ∨ jsTrim (jsToLower answer) = "yes") →
          ¬ (jsTrim (jsToLower answer) = "s" ∨ jsTrim (jsToLower answer) = "skip") →
          promptForApprovalSimple answer = ApprovalChoice.no)) := by
  have hsimple : ∀ answer,
      promptForApprovalSimple answer ∈
        [ApprovalChoice.yes, ApprovalChoice.skip, ApprovalChoice.no] ∧
      (promptForApprovalSimple answer = ApprovalChoice.yes ↔
        (jsTrim (jsToLower answer) = "y" ∨ jsTrim (jsToLower answer) = "yes")) ∧
      (promptForApprovalSimple answer = ApprovalChoice.skip ↔
        (jsTrim (jsToLower answer) = "s" ∨ jsTrim (jsToLower answer) = "skip")) ∧
      (¬ (jsTrim (jsToLower answer) = "y" ∨ jsTrim (jsToLower answer) = "yes") →
        ¬ (jsTrim (jsToLower answer) = "s" ∨ jsTrim (jsToLower answer) = "skip") →
        promptForApprovalSimple answer = ApprovalChoice.no) := by
    intro answer
    unfold promptForApprovalSimple
    split_ifs with h1 h2
    · refine ⟨by simp, by simp [h1], ?_, fun hny _ => absurd h1 hny⟩
      constructor
      · intro hc
        exact nomatch hc
      · intro hs
        exfalso
        rcases h1 with h | h <;> rcases hs with h' | h' <;> rw [h] at h' <;> simp at h'
    · refine ⟨by simp, ?_, by simp [h2], fun _ hns => absurd h2 hns⟩
      exact Iff.intro (fun hc => nomatch hc) (fun hy => absurd hy h1)
    · refine ⟨by simp, ?_, ?_, fun _ _ => rfl⟩
      · exact Iff.intro (fun hc => nomatch hc) (fun hy => absurd hy h1)
      · exact Iff.intro (fun hc => nomatch hc) (fun hs => absurd hs h2)
  refine ⟨?_, hsimple⟩
  intro e
  cases e with
  | ttySelect i =>
      have h3 : (i : Nat) < 3 := i.isLt
      interval_cases h : (i : Nat) <;>
        simp [promptForApproval, approvalSelectChoices, List.get, h]
  | ttyCancel => simp [promptForApproval]
  | noTTY answer =>
      have := (hsimple answer).1
      simp only [List.mem_cons, List.mem_singleton] at this ⊢
      tauto

/-- Witness for C7 at a concrete unrecognized answer: `a` satisfies neither
recognised pattern and resolves to `no`. -/
theorem approval_exhaustive_safe_default_witness :
    ¬ (jsTrim (jsToLower "a") = "y" ∨ jsTrim (jsToLower "a") = "yes") ∧
    ¬ (jsTrim (jsToLower "a") = "s" ∨ jsTrim (jsToLower "a") = "skip") ∧
    promptForApprovalSimple "a" = ApprovalChoice.no :=
  ⟨by decide, by decide,
   ((approval_exhaustive_safe_default.2 "a").2.2.2 (by decide) (by decide))⟩

/-! ### Execution state and external capabilities

I/O-bearing tool code threads an explicit `World`; the capabilities the spec
treats as external collaborators (search, git, subprocess execution, the
patch engine from the `diff` package, the advisor models) are oracles in an
`Env`. -/

/-- External capabilities consumed by the tool handlers. -/
structure Env where
  repoSearchJson : String → String
  gitDiffText : String
  execCmd : String → CommandResult
  patchEngine : String → String → Option String
  askOpenaiFn : String → AdvisorResponse
  askGeminiFn : String → AdvisorResponse

/-- The mutable state of one task run: the file system (absolute path ↦
content), the stream of pending human approval answers, the audit ledger,
the advisor-response list, and effect logs (commands actually executed,
number of approval prompts presented). -/
structure World where
  fs : List (String × String) := []
  decisions : List ApprovalChoice := []
  ledger : List ToolCallRecord := []
  advisorLog : List AdvisorResponse := []
  execLog : List String := []
  promptsShown : Nat := 0
deriving Repr, DecidableEq

/-- Look a path up in the in-memory file system. -/
def lookupFs (fs : List (String × String)) (path : String) : Option String :=
  (fs.find? (fun pc => pc.1 == path)).map (fun pc => pc.2)

/-- Create or overwrite a file. -/
def updateFs (fs : List (String × String)) (path content : String) :
    List (String × String) :=
  (path, content) :: fs.filter (fun pc => pc.1 ≠ path)

/-- Present one approval prompt and consume the human's next answer (an
exhausted answer stream behaves like the fallback prompt's default, `no`). -/
def nextDecision (w : World) : ApprovalChoice × World :=
  match w.decisions with
  | [] => (.no, { w with promptsShown := w.promptsShown + 1 })
  | c :: rest => (c, { w with decisions := rest, promptsShown := w.promptsShown + 1 })

/-- Append one audit record to the ledger. -/
def pushRecord (w : World) (tool : String) (input : ToolInput) (output : String) :
    World :=
  { w with ledger := w.ledger ++ [⟨tool, input, output⟩] }

/-! ### `src/mcp/tools/read-file.ts` -/

/-- The error classes `readFile` can throw: `FileNotFoundError` (ENOENT) or
the generic access-denied error of its traversal guard. -/
inductive ReadError where
  | notFound (path : String)
  | accessDenied
deriving Repr, DecidableEq

/-- `Access denied` message thrown by `readFile`'s traversal guard. -/
def accessDeniedMsg : String :=
  "Access denied: path must be within working directory"

/-- The full path `readFile` reads: absolute paths as-is, relative paths
joined onto the working directory (model of `join(options.cwd, path)`). -/
def readTargetPath (path cwd : String) : String :=
  if nodeIsAbsolute path then path else cwd ++ "/" ++ path

/-- `readFile(path, { cwd })`: prefix-guard against traversal, then read;
a missing file raises `FileNotFoundError` carrying the requested path. -/
def readFileT (path cwd : String) (fs : List (String × String)) :
    Except ReadError String :=
  if ¬ strStartsWith (readTargetPath path cwd) cwd then .error .accessDenied
  else
    match lookupFs fs (readTargetPath path cwd) with
    | some content => .ok content
    | none => .error (.notFound path)

/-! ### `src/mcp/tools/run-command.ts` -/

/-- The hard-coded prefix allow-list of `isCommandAllowed`. -/
def prefixAllowed : List String :=
  ["yarn test", "yarn lint", "yarn typecheck", "yarn build",
   "npm test", "npm run", "git diff", "git status", "git log",
   "ls", "cat", "head", "tail"]

/-- `isCommandAllowed(cmd)`: normalise (trim, lowercase), accept on an exact
match against `ALLOWED_COMMANDS` or a prefix match against the prefix
allow-list. -/
def isCommandAllowed (cmd : String) : Bool :=
  ALLOWED_COMMANDS.any (fun allowed => jsToLower (jsTrim cmd) == jsToLower allowed)
    || prefixAllowed.any (fun pre => strStartsWith (jsToLower (jsTrim cmd)) (jsToLower pre))

/-- Join with `", "` (model of `Array.prototype.join(', ')`). -/
def joinCommaSp : List String → String
  | [] => ""
  | [s] => s
  | s :: rest => s ++ ", " ++ joinCommaSp rest

/-- The `CommandResult` returned for a command that fails the allow-list:
nothing is executed and the stderr text enumerates the allowed set. -/
def notAllowedResult (cmd : String) : CommandResult :=
  { stdout := ""
    stderr := "Command not allowed: " ++ cmd ++ "\n\nAllowed commands: "
      ++ joinCommaSp ALLOWED_COMMANDS
    exitCode := 1 }

/-- `runCommand(cmd, options)`: allow-list check first; only allowed
commands reach the subprocess oracle (and the execution log). -/
def runCommand (env : Env) (cmd : String) (w : World) : CommandResult × World :=
  if ¬ isCommandAllowed cmd then (notAllowedResult cmd, w)
  else (env.execCmd cmd, { w with execLog := w.execLog ++ [cmd] })

/-! ### `src/mcp/tools/write-file.ts` and `apply-patch.ts` -/

/-- The options record of the write-class tools. -/
structure WriteToolOptions where
  cwd : String
  workspace : Option String
  allowWrite : Bool
  requireApproval : Bool
deriving Repr, DecidableEq

/-- `writeFile`'s disabled-writes message. -/
def writesDisabledToolMsg : String :=
  "File writes are disabled. Use --apply or --approve flag to enable file modifications."

/-- `applyPatch`'s disabled-writes message. -/
def patchDisabledToolMsg : String :=
  "Patch application is disabled. Use --apply or --approve flag to enable file modifications."

/-- Missing-workspace message shared by both write-class tools. -/
def noWorkspaceMsg : String :=
  "No workspace configured. Use --workspace to specify where file writes are allowed."

/-- The message of the abort-branch `OperationResult`. -/
def abortAllMsg : String :=
  "ABORT: User aborted all remaining changes."

/-- `writeFile(path, content, options)`: flag check, workspace check,
sandbox resolution, then (in approve mode) one approval prompt whose answer
decides between aborting, rejecting/skipping, and committing the write. -/
def writeFile (opts : WriteToolOptions) (path content : String) (w : World) :
    OperationResult × World :=
  if ¬ opts.allowWrite ∧ ¬ opts.requireApproval then
    ({ ok := false, message := writesDisabledToolMsg }, w)
  else
    match opts.workspace with
    | none => ({ ok := false, message := noWorkspaceMsg }, w)
    | some ws =>
        match resolvePathInWorkspace path ws with
        | .error e => ({ ok := false, message := e.message }, w)
        | .ok fullPath =>
            if opts.requireApproval then
              match nextDecision w with
              | (choice, w') =>
                  if choice = .abort then
                    ({ ok := false, message := abortAllMsg, abort := true }, w')
                  else if choice = .no ∨ choice = .skip then
                    ({ ok := false
                       message := "Write to " ++ path ++ " was "
                         ++ (if choice = .skip then "skipped" else "rejected")
                         ++ " by user." }, w')
                  else
                    ({ ok := true, message := "Successfully wrote to " ++ path },
                     { w' with fs := updateFs w'.fs fullPath content })
            else
              ({ ok := true, message := "Successfully wrote to " ++ path },
               { w with fs := updateFs w.fs fullPath content })

/-- `applyPatch(path, unifiedDiff, options)`: same shape as `writeFile`,
with the `diff` package's patch engine (an oracle here) between sandbox
resolution and the approval gate; a non-matching patch fails early. -/
def applyPatch (env : Env) (opts : WriteToolOptions) (path unifiedDiff : String)
    (w : World) : OperationResult × World :=
  if ¬ opts.allowWrite ∧ ¬ opts.requireApproval then
    ({ ok := false, message := patchDisabledToolMsg }, w)
  else
    match opts.workspace with
    | none => ({ ok := false, message := noWorkspaceMsg }, w)
    | some ws =>
        match resolvePathInWorkspace path ws with
        | .error e => ({ ok := false, message := e.message }, w)
        | .ok fullPath =>
            match env.patchEngine ((lookupFs w.fs fullPath).getD "") unifiedDiff with
            | none =>
                ({ ok := false
                   message := "Failed to apply patch: patch does not match current file content" }, w)
            | some patched =>
                if opts.requireApproval then
                  match nextDecision w with
                  | (choice, w') =>
                      if choice = .abort then
                        ({ ok := false, message := abortAllMsg, abort := true }, w')
                      else if choice = .no ∨ choice = .skip then
                        ({ ok := false
                           message := "Patch to " ++ path ++ " was "
                             ++ (if choice = .skip then "skipped" else "rejected")
                             ++ " by user." }, w')
                      else
                        ({ ok := true
                           message := "Successfully applied patch to " ++ path },
                         { w' with fs := updateFs w'.fs fullPath patched })
                else
                  ({ ok := true, message := "Successfully applied patch to " ++ path },
                   { w with fs := updateFs w.fs fullPath patched })

/-! ### JSON rendering (`JSON.stringify` as the dispatcher uses it) -/

/-- Escape one character as inside a JSON string literal. -/
def jsonEscapeChar (c : Char) : List Char :=
  if c = '"' then ['\\', '"']
  else if c = '\\' then ['\\', '\\']
  else if c = '\n' then ['\\', 'n']
  else [c]

/-- Escape a string for embedding in a JSON string literal. -/
def jsonEscape (s : String) : String :=
  ⟨(s.data.map jsonEscapeChar).flatten⟩

/-- `JSON.stringify(writeResult)` for an `OperationResult` (the `abort`
field is only attached on branches the dispatcher never stringifies). -/
def renderOperationResult (r : OperationResult) : String :=
  "\x7b\"ok\":" ++ (if r.ok then "true" else "false")
    ++ ",\"message\":\"" ++ jsonEscape r.message ++ "\"\x7d"

/-- `JSON.stringify(cmdResult, null, 2)` for a `CommandResult`. -/
def renderCommandResultJson (r : CommandResult) : String :=
  "\x7b\n  \"stdout\": \"" ++ jsonEscape r.stdout
    ++ "\",\n  \"stderr\": \"" ++ jsonEscape r.stderr
    ++ "\",\n  \"exitCode\": " ++ toString r.exitCode ++ "\n\x7d"

/-! ### `executeToolCall` (`src/router.ts`) — the tool dispatcher -/

/-- The informational result returned for a `read_file` on a missing path. -/
def missingFileMessage (path : String) : String :=
  "[FILE DOES NOT EXIST: " ++ path
    ++ "]\n\nThis file does not exist yet. If your task requires creating this file, you MUST call the write_file tool to create it. Do not assume it will be created automatically."

/-- The dispatcher's error result when a write-class invocation reported the
abort signal. -/
def abortToolErrMsg : String :=
  "ABORT: User aborted all remaining changes. Stop processing further writes."

/-- The write-tool options the dispatcher passes down:
`allowWrite := options.apply`, `requireApproval := options.approve`. -/
def writeOptsOf (opts : CliOptions) : WriteToolOptions :=
  { cwd := opts.cwd, workspace := opts.workspace
    allowWrite := opts.apply, requireApproval := opts.approve }

/-- `executeToolCall(name, input, options, toolCalls, advisorResponses)`:
routes one invocation by tool name, enforces write-mode preconditions,
converts thrown errors into error envelopes, and appends one audit record —
with output truncated to 1000 characters — on the content-producing paths. -/
def executeToolCall (env : Env) (opts : CliOptions) (name : String)
    (input : ToolInput) (w : World) : ToolResult × World :=
  match name with
  | "repo_search" =>
      ({ content := some (env.repoSearchJson input.query) },
       pushRecord w name input (strTake (env.repoSearchJson input.query) 1000))
  | "read_file" =>
      match readFileT input.path opts.cwd w.fs with
      | .ok content =>
          ({ content := some content },
           pushRecord w name input (strTake content 1000))
      | .error (.notFound p) =>
          ({ content := some (missingFileMessage p) },
           pushRecord w name input (missingFileMessage p))
      | .error .accessDenied => ({ error := some accessDeniedMsg }, w)
  | "git_diff" =>
      ({ content := some env.gitDiffText },
       pushRecord w name input (strTake env.gitDiffText 1000))
  | "run_command" =>
      match runCommand env input.cmd w with
      | (cmdResult, w') =>
          ({ content := some (renderCommandResultJson cmdResult) },
           pushRecord w' name input (strTake (renderCommandResultJson cmdResult) 1000))
  | "write_file" =>
      if ¬ opts.apply ∧ ¬ opts.approve then
        ({ error := some "File writes are disabled. Use --apply or --approve flag to enable." }, w)
      else
        match writeFile (writeOptsOf opts) input.path input.content w with
        | (writeResult, w') =>
            if writeResult.abort then ({ error := some abortToolErrMsg }, w')
            else
              ({ content := some (renderOperationResult writeResult) },
               pushRecord w' name input (strTake (renderOperationResult writeResult) 1000))
  | "apply_patch" =>
      if ¬ opts.apply ∧ ¬ opts.approve then
        ({ error := some "Patch application is disabled. Use --apply or --approve flag to enable." }, w)
      else
        match applyPatch env (writeOptsOf opts) input.path input.unifiedDiff w with
        | (patchResult, w') =>
            if patchResult.abort then ({ error := some abortToolErrMsg }, w')
            else
              ({ content := some (renderOperationResult patchResult) },
               pushRecord w' name input (strTake (renderOperationResult patchResult) 1000))
  | "ask_openai" =>
      match (env.askOpenaiFn input.promptArg).error with
      | some e =>
          ({ error := some e },
           { w with advisorLog := w.advisorLog ++ [env.askOpenaiFn input.promptArg] })
      | none =>
          ({ content := some (env.askOpenaiFn input.promptArg).response },
           pushRecord
             { w with advisorLog := w.advisorLog ++ [env.askOpenaiFn input.promptArg] }
             name input (strTake (env.askOpenaiFn input.promptArg).response 1000))
  | "ask_gemini" =>
      match (env.askGeminiFn input.promptArg).error with
      | some e =>
          ({ error := some e },
           { w with advisorLog := w.advisorLog ++ [env.askGeminiFn input.promptArg] })
      | none =>
          ({ content := some (env.askGeminiFn input.promptArg).response },
           pushRecord
             { w with advisorLog := w.advisorLog ++ [env.askGeminiFn input.promptArg] }
             name input (strTake (env.askGeminiFn input.promptArg).response 1000))
  | _ => ({ error := some ("Unknown tool: " ++ name) }, w)

/-- Sequential dispatch of a batch of invocations, as the agent loop's
per-turn `for` loop performs it. -/
def runToolCalls (env : Env) (opts : CliOptions) :
    List (String × ToolInput) → World → List ToolResult × World
  | [], w => ([], w)
  | (name, input) :: rest, w =>
      match executeToolCall env opts name input w with
      | (r, w') =>
          match runToolCalls env opts rest w' with
          | (rs, w'') => (r :: rs, w'')

/-! ### `buildTools` (`src/router.ts`) — the mode-dependent tool catalog -/

/-- The four always-present repository tools. -/
def baseTools : List AgentTool :=
  [{ name := "repo_search"
     description := "Search for text patterns in repository files. Returns matching files, line numbers, and previews."
     required := ["query"] },
   { name := "read_file"
     description := "Read the contents of a file in the repository."
     required := ["path"] },
   { name := "git_diff"
     description := "Get the current git diff showing staged and unstaged changes."
     required := [] },
   { name := "run_command"
     description := "Run an allowed command (yarn test, yarn lint, git status, etc.). Only safe commands are permitted."
     required := ["cmd"] }]

/-- The mode note interpolated into the write tools' descriptions. -/
def modeNote (opts : CliOptions) : String :=
  if opts.approve then
    "User will be prompted to approve each change with options: [y]es / [n]o / [s]kip / [a]bort."
  else
    "Changes will be applied immediately (--apply mode)."

/-- The workflow note interpolated into the write tools' descriptions. -/
def workflowNote : String :=
  "IMPORTANT: Before calling this tool, you MUST first state \"I am ready to write the following files:\" and list all planned changes."

/-- Advisor prompt-structure guidance appended to advisor tool descriptions. -/
def advisorPromptGuidance : String :=
  "Structure your prompt as:\n1. TASK: Brief summary of what you're working on\n2. CONTEXT: Only relevant code snippets (max 50 lines)\n3. CONSTRAINTS: Any requirements (tests, style, compatibility)\n4. QUESTION: Specific question with expected response format"

/-- `buildTools(options)`: the base tools, then — only when `--apply` or
`--approve` is set — `write_file` and `apply_patch`, then the advisor tools
enabled by `--advisors`. -/
def buildTools (opts : CliOptions) : List AgentTool :=
  baseTools
    ++ (if opts.apply || opts.approve then
          [{ name := "write_file"
             description := "Write content to a file. " ++ modeNote opts ++ " " ++ workflowNote
             required := ["path", "content"] },
           { name := "apply_patch"
             description := "Apply a unified diff patch to a file. " ++ modeNote opts ++ " " ++ workflowNote
             required := ["path", "unifiedDiff"] }]
        else [])
    ++ (if opts.advisors.contains "openai" then
          [{ name := "ask_openai"
             description := "Ask OpenAI GPT for a second opinion. Use for architecture decisions, trade-offs, or validation. " ++ advisorPromptGuidance
             required := ["prompt"] }]
        else [])
    ++ (if opts.advisors.contains "gemini" then
          [{ name := "ask_gemini"
             description := "Ask Google Gemini for a second opinion. " ++ advisorPromptGuidance
             required := ["prompt"] }]
        else [])

/-! ### Concrete fixtures used by closed theorems -/

/-- An `Env` whose oracles all return inert values. -/
def trivialEnv : Env :=
  { repoSearchJson := fun _ => ""
    gitDiffText := ""
    execCmd := fun _ => { stdout := "", stderr := "", exitCode := 0 }
    patchEngine := fun _ _ => none
    askOpenaiFn := fun _ => { response := "", model := "openai" }
    askGeminiFn := fun _ => { response := "", model := "gemini" } }

/-- Options for a dry run (neither `--apply` nor `--approve`). -/
def dryRunOpts : CliOptions :=
  { apply := false, approve := false, advisors := [], workspace := none, cwd := "/repo" }

/-- Options for an approve-mode run with workspace `/ws`. -/
def approveOpts : CliOptions :=
  { apply := false, approve := true, advisors := [], workspace := some "/ws", cwd := "/ws" }

/-- A fresh world whose human will answer `abort`, then `yes`. -/
def abortThenYesWorld : World :=
  { decisions := [.abort, .yes] }

/-! ### State-preservation lemmas for the tool handlers -/

theorem nextDecision_ledger (w : World) : (nextDecision w).2.ledger = w.ledger := by
  unfold nextDecision
  split <;> rfl

theorem nextDecision_fs (w : World) : (nextDecision w).2.fs = w.fs := by
  unfold nextDecision
  split <;> rfl

theorem runCommand_ledger (env : Env) (cmd : String) (w : World) :
    ((runCommand env cmd w).2).ledger = w.ledger := by
  unfold runCommand
  split <;> rfl

theorem writeFile_ledger (opts : WriteToolOptions) (path content : String) (w : World) :
    ((writeFile opts path content w).2).ledger = w.ledger := by
  unfold writeFile
  split
  · rfl
  · split
    · rfl
    · split
      · rfl
      · split
        · rcases hnd : nextDecision w with ⟨choice, w'⟩
          have h2 := nextDecision_ledger w
          rw [hnd] at h2
          dsimp only
          split_ifs <;> simpa using h2
        · rfl

theorem applyPatch_ledger (env : Env) (opts : WriteToolOptions)
    (path unifiedDiff : String) (w : World) :
    ((applyPatch env opts path unifiedDiff w).2).ledger = w.ledger := by
  unfold applyPatch
  split
  · rfl
  · split
    · rfl
    · split
      · rfl
      · split
        · rfl
        · split
          · rcases hnd : nextDecision w with ⟨choice, w'⟩
            have h2 := nextDecision_ledger w
            rw [hnd] at h2
            dsimp only
            split_ifs <;> simpa using h2
          · rfl

/-! ### C6 — write-mode tool gating -/

/-- C6 — Write-mode tool gating: when neither `--apply` nor `--approve` is
set (dry-run), the built catalog contains neither `write_file` nor
`apply_patch`; whenever either flag is set (approve or apply mode), it
contains both. -/
theorem write_mode_tool_gating (opts : CliOptions) :
    ((opts.apply = false ∧ opts.approve = false) →
        "write_file" ∉ (buildTools opts).map AgentTool.name ∧
        "apply_patch" ∉ (buildTools opts).map AgentTool.name) ∧
    ((opts.apply = true ∨ opts.approve = true) →
        "write_file" ∈ (buildTools opts).map AgentTool.name ∧
        "apply_patch" ∈ (buildTools opts).map AgentTool.name) := by
  constructor
  · rintro ⟨h1, h2⟩
    unfold buildTools baseTools
    rw [h1, h2]
    split_ifs <;> simp_all
  · intro h
    have hcond : (opts.apply || opts.approve) = true := by
      rcases h with h | h <;> simp [h]
    unfold buildTools baseTools
    rw [hcond]
    split_ifs <;> simp_all

/-- Witness for C6: the dry-run options exclude both write tools and the
approve-mode options include both. -/
theorem write_mode_tool_gating_witness :
    ("write_file" ∉ (buildTools dryRunOpts).map AgentTool.name ∧
      "apply_patch" ∉ (buildTools dryRunOpts).map AgentTool.name) ∧
    ("write_file" ∈ (buildTools approveOpts).map AgentTool.name ∧
      "apply_patch" ∈ (buildTools approveOpts).map AgentTool.name) :=
  ⟨(write_mode_tool_gating dryRunOpts).1 ⟨rfl, rfl⟩,
   (write_mode_tool_gating approveOpts).2 (Or.inr rfl)⟩

/-! ### C8 — missing-file read semantics -/

/-- C8 — Missing-file read semantics: a `read_file` whose target passes the
traversal guard but does not exist returns a successful `ToolResult`
(content, no error) whose text is the informational message, and that
message carries the explicit "does not exist yet" marker. -/
theorem read_missing_file_returns_content (env : Env) (opts : CliOptions)
    (input : ToolInput) (w : World)
    (hguard : strStartsWith (readTargetPath input.path opts.cwd) opts.cwd = true)
    (hmissing : lookupFs w.fs (readTargetPath input.path opts.cwd) = none) :
    (executeToolCall env opts "read_file" input w).1
        = { content := some (missingFileMessage input.path), error := none } ∧
    (executeToolCall env opts "read_file" input w).2
        = pushRecord w "read_file" input (missingFileMessage input.path) ∧
    ∃ pre post,
      missingFileMessage input.path = pre ++ ("does not exist yet" ++ post) := by
  have hread : readFileT input.path opts.cwd w.fs
      = .error (.notFound input.path) := by
    unfold readFileT
    rw [hguard, hmissing]
    simp
  refine ⟨?_, ?_, ?_⟩
  · show (match readFileT input.path opts.cwd w.fs with
      | .ok content =>
          (({ content := some content } : ToolResult),
           pushRecord w "read_file" input (strTake content 1000))
      | .error (.notFound p) =>
          ({ content := some (missingFileMessage p) },
           pushRecord w "read_file" input (missingFileMessage p))
      | .error .accessDenied => ({ error := some accessDeniedMsg }, w)).1
      = { content := some (missingFileMessage input.path), error := none }
    rw [hread]
  · show (match readFileT input.path opts.cwd w.fs with
      | .ok content =>
          (({ content := some content } : ToolResult),
           pushRecord w "read_file" input (strTake content 1000))
      | .error (.notFound p) =>
          ({ content := some (missingFileMessage p) },
           pushRecord w "read_file" input (missingFileMessage p))
      | .error .accessDenied => ({ error := some accessDeniedMsg }, w)).2
      = pushRecord w "read_file" input (missingFileMessage input.path)
    rw [hread]
  · refine ⟨"[FILE DOES NOT EXIST: " ++ input.path ++ "]\n\nThis file ",
      ". If your task requires creating this file, you MUST call the write_file tool to create it. Do not assume it will be created automatically.", ?_⟩
    have hsplit :
        ("]\n\nThis file does not exist yet. If your task requires creating this file, you MUST call the write_file tool to create it. Do not assume it will be created automatically." : String)
          = "]\n\nThis file "
            ++ ("does not exist yet"
              ++ ". If your task requires creating this file, you MUST call the write_file tool to create it. Do not assume it will be created automatically.") := by
      decide
    unfold missingFileMessage
    rw [hsplit]
    simp [String.append_assoc]

/-- Witness for C8 at a concrete input: reading `missing.txt` in an empty
repository. -/
theorem read_missing_file_returns_content_witness :
    strStartsWith (readTargetPath "missing.txt" "/repo") "/repo" = true ∧
    lookupFs ([] : List (String × String)) (readTargetPath "missing.txt" "/repo") = none ∧
    ((executeToolCall trivialEnv dryRunOpts "read_file" { path := "missing.txt" } {}).1
        = { content := some (missingFileMessage "missing.txt"), error := none } ∧
      (executeToolCall trivialEnv dryRunOpts "read_file" { path := "missing.txt" } {}).2
        = pushRecord {} "read_file" { path := "missing.txt" }
            (missingFileMessage "missing.txt") ∧
      ∃ pre post,
        missingFileMessage "missing.txt" = pre ++ ("does not exist yet" ++ post)) :=
  ⟨by decide, by decide,
   read_missing_file_returns_content trivialEnv dryRunOpts { path := "missing.txt" } {}
     (by decide) (by decide)⟩

/-! ### C9 — command allow-list enforcement -/

/-- C9 counterexample: the disallowed command `rm -rf /` is never executed
and its result text enumerates the allowed commands, but the dispatcher
returns it as a *successful* `ToolResult` (a content envelope whose JSON
carries `exitCode: 1`), not as an error `ToolResult` as the claim states. -/
theorem disallowed_command_is_content_envelope :
    isCommandAllowed "rm -rf /" = false ∧
    (executeToolCall trivialEnv dryRunOpts "run_command" { cmd := "rm -rf /" } {}).1.error
        = none ∧
    (executeToolCall trivialEnv dryRunOpts "run_command" { cmd := "rm -rf /" } {}).1.content
        = some (renderCommandResultJson (notAllowedResult "rm -rf /")) ∧
    (executeToolCall trivialEnv dryRunOpts "run_command" { cmd := "rm -rf /" } {}).2.execLog
        = [] := by
  refine ⟨by decide, by decide, by decide, by decide⟩

/-- C9 (amended) — Command allow-list enforcement: every `run_command`
invocation is checked against the allow-list (exact and prefix rules)
before execution; a command matching neither rule is never executed (the
execution log is untouched) and yields the fixed not-allowed
`CommandResult` — exit code 1, stderr enumerating `ALLOWED_COMMANDS` —
which the dispatcher returns as the text of a *successful* content
`ToolResult` rather than an error envelope. -/
theorem command_allowlist_enforced (env : Env) (opts : CliOptions)
    (input : ToolInput) (w : World)
    (hnot : isCommandAllowed input.cmd = false) :
    runCommand env input.cmd w = (notAllowedResult input.cmd, w) ∧
    (notAllowedResult input.cmd).exitCode = 1 ∧
    (notAllowedResult input.cmd).stderr
        = "Command not allowed: " ++ input.cmd ++ "\n\nAllowed commands: "
          ++ joinCommaSp ALLOWED_COMMANDS ∧
    (executeToolCall env opts "run_command" input w).1.error = none ∧
    (executeToolCall env opts "run_command" input w).1.content
        = some (renderCommandResultJson (notAllowedResult input.cmd)) ∧
    (executeToolCall env opts "run_command" input w).2.execLog = w.execLog := by
  have hrun : runCommand env input.cmd w = (notAllowedResult input.cmd, w) := by
    unfold runCommand
    rw [hnot]
    simp
  refine ⟨hrun, rfl, rfl, ?_, ?_, ?_⟩
  · show (match runCommand env input.cmd w with
      | (cmdResult, w') =>
          (({ content := some (renderCommandResultJson cmdResult) } : ToolResult),
           pushRecord w' "run_command" input
             (strTake (renderCommandResultJson cmdResult) 1000))).1.error = none
    rw [hrun]
  · show (match runCommand env input.cmd w with
      | (cmdResult, w') =>
          (({ content := some (renderCommandResultJson cmdResult) } : ToolResult),
           pushRecord w' "run_command" input
             (strTake (renderCommandResultJson cmdResult) 1000))).1.content
        = some (renderCommandResultJson (notAllowedResult input.cmd))
    rw [hrun]
  · show (match runCommand env input.cmd w with
      | (cmdResult, w') =>
          (({ content := some (renderCommandResultJson cmdResult) } : ToolResult),
           pushRecord w' "run_command" input
             (strTake (renderCommandResultJson cmdResult) 1000))).2.execLog = w.execLog
    rw [hrun]
    rfl

/-- Witness for C9's amended theorem at the concrete command `rm -rf /`. -/
theorem command_allowlist_enforced_witness :
    isCommandAllowed "rm -rf /" = false ∧
    (runCommand trivialEnv "rm -rf /" {} = (notAllowedResult "rm -rf /", {}) ∧
      (notAllowedResult "rm -rf /").exitCode = 1 ∧
      (notAllowedResult "rm -rf /").stderr
          = "Command not allowed: " ++ "rm -rf /" ++ "\n\nAllowed commands: "
            ++ joinCommaSp ALLOWED_COMMANDS ∧
      (executeToolCall trivialEnv dryRunOpts "run_command" { cmd := "rm -rf /" } {}).1.error
          = none ∧
      (executeToolCall trivialEnv dryRunOpts "run_command" { cmd := "rm -rf /" } {}).1.content
          = some (renderCommandResultJson (notAllowedResult "rm -rf /")) ∧
      (executeToolCall trivialEnv dryRunOpts "run_command" { cmd := "rm -rf /" } {}).2.execLog
          = ({} : World).execLog) :=
  ⟨by decide,
   command_allowlist_enforced trivialEnv dryRunOpts { cmd := "rm -rf /" } {} (by decide)⟩

/-! ### C3 — audit-ledger behaviour of the dispatcher -/

theorem readFileT_notFound_path (path cwd : String) (fs : List (String × String))
    (p : String) (h : readFileT path cwd fs = .error (.notFound p)) : p = path := by
  unfold readFileT at h
  split at h
  · cases h
  · split at h
    · cases h
    · cases h
      rfl

/-- C3 counterexample: dispatching an unknown tool name produces an error
`ToolResult` and appends *no* `ToolCallRecord` — one dispatched invocation,
zero ledger entries, contradicting "exactly one record per dispatched
invocation, including … unknown tools". -/
theorem audit_unknown_tool_unrecorded :
    (executeToolCall trivialEnv dryRunOpts "bogus" {} {}).1.error
        = some "Unknown tool: bogus" ∧
    (executeToolCall trivialEnv dryRunOpts "bogus" {} {}).2.ledger = [] := by
  exact ⟨by decide, by decide⟩

/-- C3 (amended) — Audit ledger behaviour: a dispatched invocation appends
exactly one `ToolCallRecord` — its output truncated to 1000 characters,
except the missing-file informational read which is recorded in full — if
and only if it produces a successful content result; invocations returning
an error envelope (unknown tool, disabled write mode, abort, advisor error,
thrown read error) append no record at all. -/
theorem audit_record_iff_content (env : Env) (opts : CliOptions) (name : String)
    (input : ToolInput) (w : World) :
    ((executeToolCall env opts name input w).1.error = none →
        ∃ rec, (executeToolCall env opts name input w).2.ledger = w.ledger ++ [rec] ∧
          rec.tool = name ∧ rec.input = input ∧
          ((∃ full, rec.output = strTake full 1000) ∨
            rec.output = missingFileMessage input.path)) ∧
    ((executeToolCall env opts name input w).1.error ≠ none →
        (executeToolCall env opts name input w).2.ledger = w.ledger) := by
  unfold executeToolCall
  split
  · -- repo_search
    constructor
    · intro _
      exact ⟨⟨_, input, strTake (env.repoSearchJson input.query) 1000⟩,
        rfl, rfl, rfl, Or.inl ⟨env.repoSearchJson input.query, rfl⟩⟩
    · intro hne
      exact absurd rfl hne
  · -- read_file
    split
    · rename_i content _
      constructor
      · intro _
        exact ⟨⟨_, input, strTake content 1000⟩, rfl, rfl, rfl, Or.inl ⟨content, rfl⟩⟩
      · intro hne
        exact absurd rfl hne
    · rename_i p heq
      have hp : p = input.path := readFileT_notFound_path _ _ _ _ heq
      constructor
      · intro _
        exact ⟨⟨_, input, missingFileMessage p⟩, rfl, rfl, rfl, Or.inr (by rw [hp])⟩
      · intro hne
        exact absurd rfl hne
    · exact ⟨fun h => (nomatch h), fun _ => rfl⟩
  · -- git_diff
    constructor
    · intro _
      exact ⟨⟨_, input, strTake env.gitDiffText 1000⟩, rfl, rfl, rfl,
        Or.inl ⟨env.gitDiffText, rfl⟩⟩
    · intro hne
      exact absurd rfl hne
  · -- run_command
    rcases hrc : runCommand env input.cmd w with ⟨cmdResult, w'⟩
    have hw' : w'.ledger = w.ledger := by
      have := runCommand_ledger env input.cmd w
      rw [hrc] at this
      exact this
    dsimp only
    constructor
    · intro _
      exact ⟨⟨_, input, strTake (renderCommandResultJson cmdResult) 1000⟩,
        by simp [pushRecord, hw'], rfl, rfl,
        Or.inl ⟨renderCommandResultJson cmdResult, rfl⟩⟩
    · intro hne
      exact absurd rfl hne
  · -- write_file
    split_ifs with hmode
    · exact ⟨fun h => (nomatch h), fun _ => rfl⟩
    · rcases hwf : writeFile (writeOptsOf opts) input.path input.content w
        with ⟨writeResult, w'⟩
      have hw' : w'.ledger = w.ledger := by
        have := writeFile_ledger (writeOptsOf opts) input.path input.content w
        rw [hwf] at this
        exact this
      dsimp only
      split_ifs with habort
      · exact ⟨fun h => (nomatch h), fun _ => hw'⟩
      · constructor
        · intro _
          exact ⟨⟨_, input, strTake (renderOperationResult writeResult) 1000⟩,
            by simp [pushRecord, hw'], rfl, rfl,
            Or.inl ⟨renderOperationResult writeResult, rfl⟩⟩
        · intro hne
          exact absurd rfl hne
  · -- apply_patch
    split_ifs with hmode
    · exact ⟨fun h => (nomatch h), fun _ => rfl⟩
    · rcases hap : applyPatch env (writeOptsOf opts) input.path input.unifiedDiff w
        with ⟨patchResult, w'⟩
      have hw' : w'.ledger = w.ledger := by
        have := applyPatch_ledger env (writeOptsOf opts) input.path input.unifiedDiff w
        rw [hap] at this
        exact this
      dsimp only
      split_ifs with habort
      · exact ⟨fun h => (nomatch h), fun _ => hw'⟩
      · constructor
        · intro _
          exact ⟨⟨_, input, strTake (renderOperationResult patchResult) 1000⟩,
            by simp [pushRecord, hw'], rfl, rfl,
            Or.inl ⟨renderOperationResult patchResult, rfl⟩⟩
        · intro hne
          exact absurd rfl hne
  · -- ask_openai
    split
    · exact ⟨fun h => (nomatch h), fun _ => rfl⟩
    · constructor
      · intro _
        exact ⟨⟨_, input, strTake (env.askOpenaiFn input.promptArg).response 1000⟩,
          rfl, rfl, rfl, Or.inl ⟨(env.askOpenaiFn input.promptArg).response, rfl⟩⟩
      · intro hne
        exact absurd rfl hne
  · -- ask_gemini
    split
    · exact ⟨fun h => (nomatch h), fun _ => rfl⟩
    · constructor
      · intro _
        exact ⟨⟨_, input, strTake (env.askGeminiFn input.promptArg).response 1000⟩,
          rfl, rfl, rfl, Or.inl ⟨(env.askGeminiFn input.promptArg).response, rfl⟩⟩
      · intro hne
        exact absurd rfl hne
  · -- unknown tool
    exact ⟨fun h => (nomatch h), fun _ => rfl⟩

/-- Witness for C3's amended theorem: a successful `repo_search` dispatch
appends exactly one record to an empty ledger. -/
theorem audit_record_iff_content_witness :
    (executeToolCall trivialEnv dryRunOpts "repo_search" {} {}).1.error = none ∧
    (∃ rec, (executeToolCall trivialEnv dryRunOpts "repo_search" {} {}).2.ledger
        = ({} : World).ledger ++ [rec] ∧
      rec.tool = "repo_search" ∧ rec.input = ({} : ToolInput) ∧
      ((∃ full, rec.output = strTake full 1000) ∨
        rec.output = missingFileMessage ({} : ToolInput).path)) :=
  ⟨by decide,
   (audit_record_iff_content trivialEnv dryRunOpts "repo_search" {} {}).1 (by decide)⟩

/-! ### C2 — abort propagation -/

/-- Unfolding of the dispatcher's `write_file` branch. -/
theorem executeToolCall_write_file (env : Env) (opts : CliOptions)
    (input : ToolInput) (w : World) :
    executeToolCall env opts "write_file" input w
      = if ¬ opts.apply ∧ ¬ opts.approve then
          ({ error := some "File writes are disabled. Use --apply or --approve flag to enable." }, w)
        else
          match writeFile (writeOptsOf opts) input.path input.content w with
          | (writeResult, w') =>
              if writeResult.abort then ({ error := some abortToolErrMsg }, w')
              else
                ({ content := some (renderOperationResult writeResult) },
                 pushRecord w' "write_file" input
                   (strTake (renderOperationResult writeResult) 1000)) := rfl

/-- C2 counterexample: in approve mode, after the human answers `abort` on
the first of two `write_file` calls, the second call is *still* dispatched —
it presents a fresh approval prompt (two prompts in total), succeeds with a
content result, and writes to disk — contradicting "no subsequent
write-class tool call in that same task is dispatched to disk". -/
theorem abort_not_latched :
    ((runToolCalls trivialEnv approveOpts
        [("write_file", { path := "a.txt", content := "x" }),
         ("write_file", { path := "b.txt", content := "y" })] abortThenYesWorld).1.map
        ToolResult.error = [some abortToolErrMsg, none]) ∧
    (runToolCalls trivialEnv approveOpts
        [("write_file", { path := "a.txt", content := "x" }),
         ("write_file", { path := "b.txt", content := "y" })] abortThenYesWorld).2.fs
      = [("/ws/b.txt", "y")] ∧
    (runToolCalls trivialEnv approveOpts
        [("write_file", { path := "a.txt", content := "x" }),
         ("write_file", { path := "b.txt", content := "y" })] abortThenYesWorld).2.promptsShown
      = 2 := by
  exact ⟨by decide, by decide, by decide⟩

/-- C2 (amended) — Abort semantics of a single call: in approve mode, when
the human answers `abort`, the current `write_file` invocation returns the
distinguished abort-class error envelope, touches neither the file system
nor the ledger, and consumes exactly the one prompt — the abort signal is
surfaced to the model as an instruction to stop, but it is not latched: a
later write-class invocation is processed afresh (see the counterexample). -/
theorem abort_terminates_single_call (env : Env) (opts : CliOptions)
    (input : ToolInput) (w : World) (ws : String)
    (happly : opts.apply = false) (happrove : opts.approve = true)
    (hws : opts.workspace = some ws)
    (hok : (resolvePathInWorkspace input.path ws).isOk = true)
    (habort : w.decisions.head? = some .abort) :
    (executeToolCall env opts "write_file" input w).1
        = { error := some abortToolErrMsg } ∧
    (executeToolCall env opts "write_file" input w).2.fs = w.fs ∧
    (executeToolCall env opts "write_file" input w).2.ledger = w.ledger ∧
    (executeToolCall env opts "write_file" input w).2.promptsShown
        = w.promptsShown + 1 := by
  obtain ⟨fullPath, hfp⟩ : ∃ fp, resolvePathInWorkspace input.path ws = .ok fp := by
    cases h : resolvePathInWorkspace input.path ws with
    | ok v => exact ⟨v, rfl⟩
    | error e => rw [h] at hok; simp [Except.isOk, Except.toBool] at hok
  obtain ⟨rest, hdec⟩ : ∃ rest, w.decisions = .abort :: rest := by
    cases hd : w.decisions with
    | nil => rw [hd] at habort; simp at habort
    | cons c cs =>
        rw [hd] at habort
        simp only [List.head?_cons, Option.some_inj] at habort
        exact ⟨cs, by rw [habort]⟩
  have hnd : nextDecision w
      = (.abort, { w with decisions := rest, promptsShown := w.promptsShown + 1 }) := by
    unfold nextDecision
    rw [hdec]
  have hwf : writeFile (writeOptsOf opts) input.path input.content w
      = ({ ok := false, message := abortAllMsg, abort := true },
         { w with decisions := rest, promptsShown := w.promptsShown + 1 }) := by
    unfold writeFile writeOptsOf
    rw [happly, happrove, hws]
    simp [hfp, hnd]
  rw [executeToolCall_write_file]
  rw [happly, happrove, hwf]
  simp

/-- Witness for C2's amended theorem at a concrete abort answer. -/
theorem abort_terminates_single_call_witness :
    (executeToolCall trivialEnv approveOpts "write_file"
        { path := "a.txt", content := "x" } abortThenYesWorld).1
      = { error := some abortToolErrMsg } ∧
    (executeToolCall trivialEnv approveOpts "write_file"
        { path := "a.txt", content := "x" } abortThenYesWorld).2.fs
      = abortThenYesWorld.fs ∧
    (executeToolCall trivialEnv approveOpts "write_file"
        { path := "a.txt", content := "x" } abortThenYesWorld).2.ledger
      = abortThenYesWorld.ledger ∧
    (executeToolCall trivialEnv approveOpts "write_file"
        { path := "a.txt", content := "x" } abortThenYesWorld).2.promptsShown
      = abortThenYesWorld.promptsShown + 1 :=
  abort_terminates_single_call trivialEnv approveOpts
    { path := "a.txt", content := "x" } abortThenYesWorld "/ws"
    rfl rfl rfl (by decide) (by decide)

/-! ### `ClaudeProvider.generateResponse` (`src/providers/claude.ts`)

The budgeted agentic loop.  The model capability is an oracle indexed by the
API-call number: conversation feedback (tool results folded into the message
list) is absorbed into the oracle, so quantifying over all oracles covers
every possible sequence of model responses.  The loop is instrumented with a
per-turn dispatch log (the tool names handed to `onToolCall`), and the
outcome carries the final values of the source's `turnCount` and
`toolCallCount` counters. -/

/-- One content block of a model response. -/
inductive Block where
  | text (s : String)
  | toolUse (id : String) (name : String) (input : ToolInput)
deriving Repr, DecidableEq

/-- A model response: the stop reason (the loop continues while it is
`tool_use`) and the content blocks. -/
structure ModelResponse where
  stop : String
  blocks : List Block
deriving Repr, DecidableEq

/-- Join with newlines (model of `texts.map(b => b.text).join('\n')`). -/
def joinNewline : List String → String
  | [] => ""
  | [s] => s
  | s :: rest => s ++ "\n" ++ joinNewline rest

/-- The text extracted from a response's text blocks. -/
def textBlocksJoin (r : ModelResponse) : String :=
  joinNewline (r.blocks.filterMap fun b =>
    match b with
    | .text s => some s
    | _ => none)

/-- The `tool_use` blocks of a response, as (id, name, input) triples. -/
def toolUseBlocksOf (r : ModelResponse) : List (String × String × ToolInput) :=
  r.blocks.filterMap fun b =>
    match b with
    | .toolUse id name input => some (id, name, input)
    | _ => none

/-- The truncation notice appended when the turn budget is exhausted. -/
def turnLimitWarning (maxTurns : Nat) : String :=
  "\n\n[Agent stopped: reached maximum turns (" ++ toString maxTurns
    ++ "). Use --maxTurns to increase.]"

/-- The truncation notice appended when the tool-call budget is exhausted. -/
def toolLimitWarning (maxToolCalls : Nat) : String :=
  "\n\n[Agent stopped: reached maximum tool calls (" ++ toString maxToolCalls
    ++ "). Use --maxToolCalls to increase.]"

/-- How a run of the loop ended. -/
inductive StopCause where
  | final
  | turnBudget
  | toolBudget
deriving Repr, DecidableEq

/-- Outcome of a loop run: the returned content, how it stopped, the
dispatch log (tool names per dispatching turn), and the final values of the
turn and tool-call counters. -/
structure RunOutcome where
  content : String
  cause : StopCause
  dispatched : List (List String)
  turnCount : Nat
  toolCallCount : Nat
deriving Repr, DecidableEq

/-- The agentic `while (stop_reason === 'tool_use')` loop.  Parameters
`turnCount`/`toolCallCount` are the counter values entering the iteration;
the source increments `turnCount` at the top of the body and checks
`turnCount > maxTurns`, which here reads `turnCount + 1 > maxTurns`; the
batch check `toolCallCount + toolUseBlocks.length > maxToolCalls` rejects
the whole batch before any dispatch; otherwise every block of the batch is
dispatched and the loop re-invokes the model. -/
def genLoop (model : Nat → ModelResponse) (maxToolCalls maxTurns : Nat) :
    ModelResponse → Nat → Nat → Nat → RunOutcome
  | resp, idx, turnCount, toolCallCount =>
    if resp.stop = "tool_use" then
      if turnCount + 1 > maxTurns then
        { content := textBlocksJoin resp ++ turnLimitWarning maxTurns
          cause := .turnBudget
          dispatched := []
          turnCount := turnCount + 1
          toolCallCount := toolCallCount }
      else
        if toolCallCount + (toolUseBlocksOf resp).length > maxToolCalls then
          { content := textBlocksJoin resp ++ toolLimitWarning maxToolCalls
            cause := .toolBudget
            dispatched := []
            turnCount := turnCount + 1
            toolCallCount := toolCallCount }
        else
          { content :=
              (genLoop model maxToolCalls maxTurns (model idx) (idx + 1)
                (turnCount + 1) (toolCallCount + (toolUseBlocksOf resp).length)).content
            cause :=
              (genLoop model maxToolCalls maxTurns (model idx) (idx + 1)
                (turnCount + 1) (toolCallCount + (toolUseBlocksOf resp).length)).cause
            dispatched :=
              (toolUseBlocksOf resp).map (fun b => b.2.1)
                :: (genLoop model maxToolCalls maxTurns (model idx) (idx + 1)
                    (turnCount + 1) (toolCallCount + (toolUseBlocksOf resp).length)).dispatched
            turnCount :=
              (genLoop model maxToolCalls maxTurns (model idx) (idx + 1)
                (turnCount + 1) (toolCallCount + (toolUseBlocksOf resp).length)).turnCount
            toolCallCount :=
              (genLoop model maxToolCalls maxTurns (model idx) (idx + 1)
                (turnCount + 1) (toolCallCount + (toolUseBlocksOf resp).length)).toolCallCount }
    else
      { content := textBlocksJoin resp
        cause := .final
        dispatched := []
        turnCount := turnCount
        toolCallCount := toolCallCount }
termination_by _resp _idx turnCount _toolCallCount => maxTurns + 1 - turnCount
decreasing_by
  rename_i h1 _h2
  omega

/-- `generateResponse`: one initial model call, then the loop with both
counters at zero. -/
def generateResponse (model : Nat → ModelResponse) (maxToolCalls maxTurns : Nat) :
    RunOutcome :=
  genLoop model maxToolCalls maxTurns (model 0) 1 0 0

/-- Invariants of the loop, by strong induction on the remaining turn
budget: the dispatch log is bounded by the budgets, the counters only
increase, and the run ends in `final` or in a budget stop whose content ends
with the notice naming the exhausted limit. -/
theorem genLoop_invariants :
    ∀ (n : Nat) (model : Nat → ModelResponse) (mTC mT : Nat)
      (resp : ModelResponse) (idx t tc : Nat), mT + 1 - t = n →
      (genLoop model mTC mT resp idx t tc).dispatched.length ≤ mT - t ∧
      (tc ≤ mTC →
        (genLoop model mTC mT resp idx t tc).dispatched.flatten.length + tc ≤ mTC) ∧
      t ≤ (genLoop model mTC mT resp idx t tc).turnCount ∧
      tc ≤ (genLoop model mTC mT resp idx t tc).toolCallCount ∧
      ((genLoop model mTC mT resp idx t tc).cause = .final ∨
        ((genLoop model mTC mT resp idx t tc).cause = .turnBudget ∧
          ∃ p, (genLoop model mTC mT resp idx t tc).content = p ++ turnLimitWarning mT) ∨
        ((genLoop model mTC mT resp idx t tc).cause = .toolBudget ∧
          ∃ p, (genLoop model mTC mT resp idx t tc).content = p ++ toolLimitWarning mTC)) := by
  intro n
  induction n using Nat.strong_induction_on with
  | _ n ih =>
      intro model mTC mT resp idx t tc hn
      rw [genLoop]
      by_cases hstop : resp.stop = "tool_use"
      · rw [if_pos hstop]
        by_cases hturn : t + 1 > mT
        · rw [if_pos hturn]
          refine ⟨by simp, by intro h; simpa using h, by simp, by simp, ?_⟩
          exact Or.inr (Or.inl ⟨rfl, textBlocksJoin resp, rfl⟩)
        · rw [if_neg hturn]
          by_cases htool : tc + (toolUseBlocksOf resp).length > mTC
          · rw [if_pos htool]
            refine ⟨by simp, by intro h; simpa using h, by simp, by simp, ?_⟩
            exact Or.inr (Or.inr ⟨rfl, textBlocksJoin resp, rfl⟩)
          · rw [if_neg htool]
            have hlt : mT + 1 - (t + 1) < n := by omega
            have hrec := ih (mT + 1 - (t + 1)) hlt model mTC mT (model idx) (idx + 1)
              (t + 1) (tc + (toolUseBlocksOf resp).length) rfl
            obtain ⟨hd, hf, ht, htc, hc⟩ := hrec
            refine ⟨?_, ?_, ?_, ?_, ?_⟩
            · simp only [List.length_cons]
              omega
            · intro hle
              have := hf (by omega)
              simp only [List.flatten_cons, List.length_append, List.length_map]
              omega
            · simpa using Nat.le_trans (Nat.le_succ t) ht
            · simpa using Nat.le_trans (Nat.le_add_right tc _) htc
            · simpa using hc
      · rw [if_neg hstop]
        exact ⟨by simp, by intro h; simpa using h, by simp, by simp, Or.inl rfl⟩

/-- C4 — Budget monotonicity and bounded termination: `generateResponse` is
a total function of the model oracle (the loop terminates by construction);
for every model behaviour and every budget pair, the number of dispatching
turns is at most `maxTurns`, the number of dispatched tool calls is at most
`maxToolCalls`, the run ends either as a final answer or as a budget stop
whose partial text is annotated with the notice naming the exhausted limit,
and the turn and tool-call counters never decrease across the loop. -/
theorem budget_bounded_termination (model : Nat → ModelResponse) (mTC mT : Nat) :
    (generateResponse model mTC mT).dispatched.length ≤ mT ∧
    (generateResponse model mTC mT).dispatched.flatten.length ≤ mTC ∧
    ((generateResponse model mTC mT).cause = .final ∨
      ((generateResponse model mTC mT).cause = .turnBudget ∧
        ∃ p, (generateResponse model mTC mT).content = p ++ turnLimitWarning mT) ∨
      ((generateResponse model mTC mT).cause = .toolBudget ∧
        ∃ p, (generateResponse model mTC mT).content = p ++ toolLimitWarning mTC)) ∧
    (∀ resp idx t tc,
      t ≤ (genLoop model mTC mT resp idx t tc).turnCount ∧
      tc ≤ (genLoop model mTC mT resp idx t tc).toolCallCount) := by
  obtain ⟨hd, hf, _, _, hc⟩ :=
    genLoop_invariants (mT + 1 - 0) model mTC mT (model 0) 1 0 0 rfl
  refine ⟨by simpa using hd, by simpa using hf (Nat.zero_le mTC), hc, ?_⟩
  intro resp idx t tc
  obtain ⟨_, _, ht, htc, _⟩ :=
    genLoop_invariants (mT + 1 - t) model mTC mT resp idx t tc rfl
  exact ⟨ht, htc⟩

/-- A model that requests the same two tool calls on every turn. -/
def twoCallModel : Nat → ModelResponse := fun _ =>
  { stop := "tool_use"
    blocks := [.toolUse "1" "repo_search" {}, .toolUse "2" "read_file" {}] }

/-- C5 counterexample: with `maxToolCalls = 1` and a first turn requesting
two tool calls, the loop dispatches *zero* calls — not "exactly the first
call" as the claim states — and returns the tool-budget stop. -/
theorem over_budget_batch_dispatches_none :
    (generateResponse twoCallModel 1 10).dispatched.flatten.length = 0 ∧
    (generateResponse twoCallModel 1 10).dispatched.flatten.length ≠ 1 ∧
    (generateResponse twoCallModel 1 10).cause = .toolBudget := by
  unfold generateResponse
  rw [genLoop]
  split_ifs with h1 h2 h3
  · exact absurd h2 (by decide)
  · exact ⟨rfl, by decide, rfl⟩
  · exact absurd (by decide : (0:Nat) + (toolUseBlocksOf (twoCallModel 0)).length > 1) h3
  · exact absurd rfl h1

/-- C5 (amended) — Tool-call budget boundary behaviour: when the first model
turn requests a batch whose size already exceeds `maxToolCalls`, the loop
dispatches *none* of the batch's calls (the whole batch is rejected by the
pre-dispatch check) and returns the tool-budget stop with the partial text
annotated by the notice naming `maxToolCalls`. -/
theorem over_budget_batch_rejected (model : Nat → ModelResponse) (mTC mT : Nat)
    (hstop : (model 0).stop = "tool_use")
    (hmT : 1 ≤ mT)
    (hbatch : (toolUseBlocksOf (model 0)).length > mTC) :
    (generateResponse model mTC mT).dispatched = [] ∧
    (generateResponse model mTC mT).cause = .toolBudget ∧
    ∃ p, (generateResponse model mTC mT).content = p ++ toolLimitWarning mTC := by
  unfold generateResponse
  rw [genLoop]
  rw [if_pos hstop, if_neg (by omega), if_pos (by omega)]
  exact ⟨rfl, rfl, textBlocksJoin (model 0), rfl⟩

/-- Witness for C5's amended theorem: the two-call model with
`maxToolCalls = 1`, `maxTurns = 10`. -/
theorem over_budget_batch_rejected_witness :
    (twoCallModel 0).stop = "tool_use" ∧ 1 ≤ 10 ∧
    (toolUseBlocksOf (twoCallModel 0)).length > 1 ∧
    ((generateResponse twoCallModel 1 10).dispatched = [] ∧
      (generateResponse twoCallModel 1 10).cause = .toolBudget ∧
      ∃ p, (generateResponse twoCallModel 1 10).content = p ++ toolLimitWarning 1) :=
  ⟨rfl, by omega, by decide,
   over_budget_batch_rejected twoCallModel 1 10 rfl (by omega) (by decide)⟩

end Friday
